import Mathlib

/-!
Verification of the nuefil UEFI library's memory-map acquisition and
boot-service termination logic (src/boot.rs, src/memory.rs).

The Rust code is shallowly embedded as follows:

* Machine integers (`u32`, `u64`, `usize`) become `Nat`; the code performs no
  wrapping arithmetic on the paths modelled here.
* The opaque firmware function-pointer table (`BootServices` fields
  `AllocatePages`, `FreePages`, `GetMemoryMap`, `ExitBootServices`) becomes a
  deterministic firmware model `FwModel`: each raw call is a function of the
  complete call history (an event log) and the call's arguments.  Every raw
  call appends an `Event` to the log, so call sequences are observable.
* `Result<T, Error>` becomes `Except Error T`; the `assert!` in
  `get_memory_map` becomes a distinguished `Outcome.panicked` result; loops
  with no structural termination argument take explicit fuel, `none` meaning
  the fuel ran out (the loop would still be running).
* The raw bytes the firmware writes into the memory-map buffer are carried as
  ghost data: a list of descriptor chunks (decoded descriptor prefix plus the
  trailing bytes of the chunk beyond the known prefix).
-/

namespace Nuefil

/-- memory.rs: `pub const PAGE_SIZE: usize = 0x1000`. -/
def PAGE_SIZE : Nat := 0x1000

/-- Value of `size_of::<MemoryDescriptor>()` for the `repr(C)` struct in memory.rs:
Type (u32, then padding to the 8-byte alignment of the u64 fields),
PhysicalStart, VirtualStart, NumberOfPages, Attribute: 40 bytes. -/
def DESCRIPTOR_SIZE : Nat := 40

/-- memory.rs: `pub struct MemoryType(u32)` — a raw numeric memory-type code. -/
structure MemoryType where
  val : Nat
deriving DecidableEq

/-- memory.rs: `pub enum NamedMemoryType`.  The Rust constructors
`MemoryMappedIO` and `MemoryMappedIOPortSpace` are spelled `MemoryMappedIo`
and `MemoryMappedIoPortSpace` here. -/
inductive NamedMemoryType where
  | ReservedMemoryType
  | LoaderCode
  | LoaderData
  | BootServicesCode
  | BootServicesData
  | RuntimeServicesCode
  | RuntimeServicesData
  | ConventionalMemory
  | UnusableMemory
  | ACPIReclaimMemory
  | ACPIMemoryNVS
  | MemoryMappedIo
  | MemoryMappedIoPortSpace
  | PalCode
  | PersistentMemory
  | UnknownMemoryType (num : Nat)
  | OEMSpecific (num : Nat)
  | OSLoaderSpecific (num : Nat)
deriving DecidableEq

/-- memory.rs: `impl From<NamedMemoryType> for MemoryType`. -/
def memoryTypeOfNamed (named : NamedMemoryType) : MemoryType :=
  MemoryType.mk
    (match named with
    | NamedMemoryType.ReservedMemoryType => 0
    | NamedMemoryType.LoaderCode => 1
    | NamedMemoryType.LoaderData => 2
    | NamedMemoryType.BootServicesCode => 3
    | NamedMemoryType.BootServicesData => 4
    | NamedMemoryType.RuntimeServicesCode => 5
    | NamedMemoryType.RuntimeServicesData => 6
    | NamedMemoryType.ConventionalMemory => 7
    | NamedMemoryType.UnusableMemory => 8
    | NamedMemoryType.ACPIReclaimMemory => 9
    | NamedMemoryType.ACPIMemoryNVS => 10
    | NamedMemoryType.MemoryMappedIo => 11
    | NamedMemoryType.MemoryMappedIoPortSpace => 12
    | NamedMemoryType.PalCode => 13
    | NamedMemoryType.PersistentMemory => 14
    | NamedMemoryType.UnknownMemoryType num => num
    | NamedMemoryType.OEMSpecific num => num + 0x70000000
    | NamedMemoryType.OSLoaderSpecific num => num + 0x80000000)

/-- memory.rs: `impl From<MemoryType> for NamedMemoryType`.  The Rust match
on the `u32` payload (inclusive ranges `15...0x6fffffff`,
`0x70000000...0x7fffffff`, `0x80000000...0xffffffff`) is rendered as an
ordered chain of comparisons; the final branch covers the last range since
the payload of a `MemoryType` coming from the code is a `u32`. -/
def namedOfMemoryTypeNum (num : Nat) : NamedMemoryType :=
  if num = 0 then NamedMemoryType.ReservedMemoryType
  else if num = 1 then NamedMemoryType.LoaderCode
  else if num = 2 then NamedMemoryType.LoaderData
  else if num = 3 then NamedMemoryType.BootServicesCode
  else if num = 4 then NamedMemoryType.BootServicesData
  else if num = 5 then NamedMemoryType.RuntimeServicesCode
  else if num = 6 then NamedMemoryType.RuntimeServicesData
  else if num = 7 then NamedMemoryType.ConventionalMemory
  else if num = 8 then NamedMemoryType.UnusableMemory
  else if num = 9 then NamedMemoryType.ACPIReclaimMemory
  else if num = 10 then NamedMemoryType.ACPIMemoryNVS
  else if num = 11 then NamedMemoryType.MemoryMappedIo
  else if num = 12 then NamedMemoryType.MemoryMappedIoPortSpace
  else if num = 13 then NamedMemoryType.PalCode
  else if num = 14 then NamedMemoryType.PersistentMemory
  else if num ≤ 0x6fffffff then NamedMemoryType.UnknownMemoryType num
  else if num ≤ 0x7fffffff then NamedMemoryType.OEMSpecific (num - 0x70000000)
  else NamedMemoryType.OSLoaderSpecific (num - 0x80000000)

/-- memory.rs: `impl From<MemoryType> for NamedMemoryType`, matching on the
wrapped `u32` code via `namedOfMemoryTypeNum`. -/
def namedOfMemoryType (memory_type : MemoryType) : NamedMemoryType :=
  namedOfMemoryTypeNum memory_type.val

/-- Modelled from the spec: the associated constants `MemoryType::LoaderData`,
`MemoryType::BootServicesCode`, `MemoryType::BootServicesData` and
`MemoryType::ConventionalMemory` used by boot.rs are declared in the crate
root file, which is not present under src/.  Their values are pinned by the
`From<NamedMemoryType> for MemoryType` impl in memory.rs, which this
definition reuses. -/
def MemoryType.ofName (named : NamedMemoryType) : MemoryType :=
  memoryTypeOfNamed named

/-- Modelled from the spec: the `Error` enum lives in status.rs, which is not
present under src/.  Per the spec, status decoding turns a raw result into
success/warning/failure; the only variant boot.rs names is `Error::Aborted`,
other failure codes are carried numerically. -/
inductive Error where
  | Aborted
  | other (code : Nat)
deriving DecidableEq

/-- Modelled from the spec: the `Status` type lives in status.rs, which is
not present under src/.  A status is a success, a warning or a failure;
`SUCCESS` is `Status.success`. -/
inductive Status where
  | success
  | warning (code : Nat)
  | failure (code : Nat)
deriving DecidableEq

/-- Modelled from the spec: the `?` operator on a `Status` (status.rs)
errors exactly on failures, so `.is_ok()` on the corresponding `Result`
holds for successes and warnings. -/
def Status.isOk : Status → Bool
  | Status.failure _ => false
  | _ => true

/-- Equality of `Except` values is decidable when it is on both sides;
this instance is needed so that concrete firmware runs can be settled by
`decide`. -/
def exceptDecEq {ε α : Type} [DecidableEq ε] [DecidableEq α] :
    (a b : Except ε α) → Decidable (a = b)
  | Except.error e1, Except.error e2 =>
    match decEq e1 e2 with
    | isTrue h => isTrue (by subst h; rfl)
    | isFalse h => isFalse (by intro hh; cases hh; exact h rfl)
  | Except.error _, Except.ok _ => isFalse (by intro hh; cases hh)
  | Except.ok _, Except.error _ => isFalse (by intro hh; cases hh)
  | Except.ok a1, Except.ok a2 =>
    match decEq a1 a2 with
    | isTrue h => isTrue (by subst h; rfl)
    | isFalse h => isFalse (by intro hh; cases hh; exact h rfl)

instance {ε α : Type} [DecidableEq ε] [DecidableEq α] : DecidableEq (Except ε α) :=
  exceptDecEq

/-- memory.rs: the `repr(C)` struct `MemoryDescriptor` (the decoded known
prefix of one memory-map record).  The Rust field `Type` is spelled `Type'`
because `Type` is reserved in Lean; `Attribute` carries the raw `u64` bit
set of `MemoryAttributes`. -/
structure MemoryDescriptor where
  Type' : MemoryType
  PhysicalStart : Nat
  VirtualStart : Nat
  NumberOfPages : Nat
  Attribute : Nat
deriving DecidableEq

/-- One stride-sized chunk of a memory-map buffer: the decoded descriptor
prefix together with the raw trailing bytes beyond `DESCRIPTOR_SIZE`. -/
abbrev DescChunk := MemoryDescriptor × List Nat

/-- The values the firmware writes through the five mutable-reference
arguments of the raw `GetMemoryMap` call before the call (boot.rs, field
`GetMemoryMap`): the in/out map size, the in/out key, descriptor size,
version, and the buffer address the descriptors are to be written to. -/
structure GmmIn where
  size : Nat
  key : Nat
  descriptor_size : Nat
  version : Nat
  buffer : Nat
deriving DecidableEq

/-- The raw `GetMemoryMap` call's effect: its returned status, the values it
leaves in the mutable-reference arguments, and (ghost data) the descriptor
chunks it wrote into the caller's buffer. -/
structure GmmOut where
  status : Status
  size : Nat
  key : Nat
  descriptor_size : Nat
  version : Nat
  entries : List DescChunk
deriving DecidableEq

/-- One raw firmware call together with its arguments and result, recording
the observable interaction between boot.rs and the firmware table. -/
inductive Event where
  | alloc (memory_type : MemoryType) (pages : Nat) (result : Except Error Nat)
  | free (addr : Nat) (pages : Nat) (result : Except Error Unit)
  | gmm (input : GmmIn) (out : GmmOut)
  | ebs (handle : Nat) (key : Nat) (result : Status)
deriving DecidableEq

/-- A deterministic firmware model: the response of each raw call
(`AllocatePages`, `FreePages`, `GetMemoryMap`, `ExitBootServices`) is a
function of the complete call history (newest event first) and the call's
arguments.  `allocR` and `freeR` already include the status-to-`Result`
decoding the Rust wrappers apply with `?`. -/
structure FwModel where
  allocR : List Event → MemoryType → Nat → Except Error Nat
  freeR : List Event → Nat → Nat → Except Error Unit
  gmmR : List Event → GmmIn → GmmOut
  ebsR : List Event → Nat → Nat → Status

/-- memory.rs: the `MemoryMap` struct.  `entries` is the ghost content of
the buffer: the descriptor chunks the firmware last wrote to it. -/
structure MemoryMap where
  buffer : Nat
  alloc_size : Nat
  size : Nat
  key : Nat
  descriptor_size : Nat
  version : Nat
  entries : List DescChunk
deriving DecidableEq

/-- The `GmmIn` view of a `MemoryMap`: the values boot.rs passes by mutable
reference into the raw `GetMemoryMap` call. -/
def gmmIn (m : MemoryMap) : GmmIn :=
  { size := m.size, key := m.key, descriptor_size := m.descriptor_size,
    version := m.version, buffer := m.buffer }

/-- The effect of a raw `GetMemoryMap` call on the `MemoryMap` it was given
by mutable reference: the firmware's outputs overwrite the corresponding
fields (and the ghost buffer content). -/
def applyGmm (m : MemoryMap) (out : GmmOut) : MemoryMap :=
  { m with
    size := out.size
    key := out.key
    descriptor_size := out.descriptor_size
    version := out.version
    entries := out.entries }

/-- The `MemoryMap` literal `get_memory_map` builds before entering its
negotiation loop (boot.rs lines 243-250): a one-page buffer at `addr`. -/
def initialMap (addr : Nat) : MemoryMap :=
  { buffer := addr, alloc_size := 1, size := PAGE_SIZE, key := 0,
    descriptor_size := 0, version := 0, entries := [] }

/-- The outcome of one iteration of `get_memory_map`'s negotiation loop. -/
inductive NegotiateOut where
  | done (r : Except Error MemoryMap)
  | next (m : MemoryMap)
deriving DecidableEq

/-- One iteration of the negotiation loop in `get_memory_map`
(boot.rs lines 252-270): call the raw `GetMemoryMap`; on `SUCCESS` break
with the filled map; otherwise set `alloc_size` to `size / PAGE_SIZE + 1`,
free the old buffer passing the updated `alloc_size` as the page count
(exactly as the source does on line 266), and allocate the new buffer,
surfacing any allocate/free error with `?`. -/
def negotiateIter (fw : FwModel) (memory_type : MemoryType) (log : List Event)
    (m : MemoryMap) : List Event × NegotiateOut :=
  let out := fw.gmmR log (gmmIn m)
  let log1 := Event.gmm (gmmIn m) out :: log
  let m1 := applyGmm m out
  if out.status = Status.success then
    (log1, NegotiateOut.done (Except.ok m1))
  else
    let m2 := { m1 with alloc_size := m1.size / PAGE_SIZE + 1 }
    let fr := fw.freeR log1 m2.buffer m2.alloc_size
    let log2 := Event.free m2.buffer m2.alloc_size fr :: log1
    match fr with
    | Except.error e => (log2, NegotiateOut.done (Except.error e))
    | Except.ok _ =>
      let ar := fw.allocR log2 memory_type m2.alloc_size
      let log3 := Event.alloc memory_type m2.alloc_size ar :: log2
      match ar with
      | Except.error e => (log3, NegotiateOut.done (Except.error e))
      | Except.ok addr => (log3, NegotiateOut.next { m2 with buffer := addr })

/-- The negotiation loop of `get_memory_map`, with explicit fuel; `none`
means the fuel ran out while the firmware kept reporting the buffer too
small. -/
def getMemoryMapLoop (fw : FwModel) (memory_type : MemoryType) :
    Nat → List Event → MemoryMap → Option (List Event × Except Error MemoryMap)
  | 0, _, _ => none
  | fuel + 1, log, m =>
    match negotiateIter fw memory_type log m with
    | (log1, NegotiateOut.done r) => some (log1, r)
    | (log1, NegotiateOut.next m1) => getMemoryMapLoop fw memory_type fuel log1 m1

/-- The result of a modelled boot.rs function: a returned value, a returned
error, or an `assert!` failure (a halt, not a return). -/
inductive Outcome (α : Type) where
  | ok (a : α)
  | err (e : Error)
  | panicked
deriving DecidableEq

/-- boot.rs `BootServices::get_memory_map` (lines 240-278): allocate one
page, run the negotiation loop, and on success `assert!` that the reported
`descriptor_size` is at least `size_of::<MemoryDescriptor>()`. -/
def get_memory_map (fw : FwModel) (memory_type : MemoryType) (fuel : Nat)
    (log : List Event) : Option (List Event × Outcome MemoryMap) :=
  let ar := fw.allocR log memory_type 1
  let log1 := Event.alloc memory_type 1 ar :: log
  match ar with
  | Except.error e => some (log1, Outcome.err e)
  | Except.ok addr =>
    match getMemoryMapLoop fw memory_type fuel log1 (initialMap addr) with
    | none => none
    | some (log2, Except.error e) => some (log2, Outcome.err e)
    | some (log2, Except.ok m) =>
      if DESCRIPTOR_SIZE ≤ m.descriptor_size then some (log2, Outcome.ok m)
      else some (log2, Outcome.panicked)

/-- The recovery loop of `exit_boot_services` (boot.rs lines 316-338),
entered after the first `ExitBootServices` call failed: each iteration
re-queries the memory map into the existing buffer (no allocation); if that
raw call does not return `SUCCESS` the loop breaks with
`Err(Error::Aborted)`; otherwise termination is re-attempted with the fresh
key and the loop breaks with `Ok(())` if it is accepted, or continues
otherwise.  Fuel bounds the number of iterations; `none` means the loop was
still running when the fuel ran out. -/
def exitLoop (fw : FwModel) (handle : Nat) :
    Nat → List Event → MemoryMap →
      Option (List Event × (Except Error Unit × MemoryMap))
  | 0, _, _ => none
  | fuel + 1, log, m =>
    let out := fw.gmmR log (gmmIn m)
    let log1 := Event.gmm (gmmIn m) out :: log
    let m1 := applyGmm m out
    if out.status = Status.success then
      let st := fw.ebsR log1 handle m1.key
      let log2 := Event.ebs handle m1.key st :: log1
      if st.isOk then some (log2, (Except.ok (), m1))
      else exitLoop fw handle fuel log2 m1
    else
      some (log1, (Except.error Error.Aborted, m1))

/-- The rewrite of one descriptor performed by the loop at boot.rs lines
342-348: a `BootServicesCode` or `BootServicesData` type becomes
`ConventionalMemory`; nothing else is touched. -/
def exitRewriteDesc (d : MemoryDescriptor) : MemoryDescriptor :=
  if d.Type' = MemoryType.ofName NamedMemoryType.BootServicesCode ∨
      d.Type' = MemoryType.ofName NamedMemoryType.BootServicesData then
    { d with Type' := MemoryType.ofName NamedMemoryType.ConventionalMemory }
  else d

/-- The post-termination side effect of `exit_boot_services` (boot.rs lines
341-348), acting on the descriptor chunks `iter_mut` yields: each
descriptor prefix is rewritten by `exitRewriteDesc`, the trailing bytes of
every chunk are untouched. -/
def exit_boot_services_rewrite (entries : List DescChunk) : List DescChunk :=
  entries.map (fun c => (exitRewriteDesc c.1, c.2))

/-- boot.rs `BootServices::exit_boot_services` (lines 310-351): obtain a
memory map for `MemoryType::LoaderData`, attempt termination with its key;
on failure run the recovery loop; the `?` after the match propagates
`Err(Error::Aborted)` from the loop; on overall success rewrite the
boot-services descriptors in the (possibly re-queried) map and return it. -/
def exit_boot_services (fw : FwModel) (handle : Nat) (fuel : Nat)
    (log : List Event) : Option (List Event × Outcome MemoryMap) :=
  match get_memory_map fw (MemoryType.ofName NamedMemoryType.LoaderData) fuel log with
  | none => none
  | some (log1, Outcome.err e) => some (log1, Outcome.err e)
  | some (log1, Outcome.panicked) => some (log1, Outcome.panicked)
  | some (log1, Outcome.ok m) =>
    let st := fw.ebsR log1 handle m.key
    let log2 := Event.ebs handle m.key st :: log1
    if st.isOk then
      some (log2, Outcome.ok { m with entries := exit_boot_services_rewrite m.entries })
    else
      match exitLoop fw handle fuel log2 m with
      | none => none
      | some (log3, (Except.error e, _)) => some (log3, Outcome.err e)
      | some (log3, (Except.ok _, m3)) =>
        some (log3, Outcome.ok { m3 with entries := exit_boot_services_rewrite m3.entries })

/-- The chunking of a byte buffer performed by `slice::chunks` /
`chunks_mut` as used in `MemoryMap::iter` and `iter_mut` (memory.rs lines
244-265): successive chunks of `stride` bytes, the final chunk shorter when
the length is not a multiple of the stride.  Rust panics on stride 0; the
claims about the iterators assume a positive stride, so that branch is
arbitrary here. -/
def rustChunks : Nat → List Nat → List (List Nat)
  | _, [] => []
  | 0, _ :: _ => []
  | s + 1, x :: xs =>
    (x :: xs).take (s + 1) :: rustChunks (s + 1) ((x :: xs).drop (s + 1))
termination_by s l => l.length
decreasing_by simp; omega

/-- The sequence of items produced by `MemoryMapIterator::next` /
`MemoryMapIteratorMut::next` (memory.rs lines 292-308 and 332-348):
iteration stops at the first chunk whose length differs from
`descriptor_size` (the source returns `None` for it), so the items are the
longest prefix of full-stride chunks. -/
def memoryMapIterItems (descriptor_size : Nat) (buffer : List Nat) : List (List Nat) :=
  (rustChunks descriptor_size buffer).takeWhile (fun c => c.length == descriptor_size)

/-- True exactly for `ExitBootServices` events. -/
def Event.isEbs : Event → Bool
  | Event.ebs _ _ _ => true
  | _ => false

/-- The number of `ExitBootServices` calls recorded in a log. -/
def ebsCount (log : List Event) : Nat :=
  (log.filter Event.isEbs).length

/-- The number of `GetMemoryMap` calls recorded in a log. -/
def gmmCount (log : List Event) : Nat :=
  (log.filter (fun ev =>
    match ev with
    | Event.gmm _ _ => true
    | _ => false)).length

/-- The number of `AllocatePages` calls recorded in a log. -/
def allocCount (log : List Event) : Nat :=
  (log.filter (fun ev =>
    match ev with
    | Event.alloc _ _ _ => true
    | _ => false)).length

/-- The outputs of the most recent `GetMemoryMap` call in a log (the log
stores the newest event first). -/
def lastGmmOut : List Event → Option GmmOut
  | [] => none
  | Event.gmm _ out :: _ => some out
  | _ :: rest => lastGmmOut rest

/-- The size most recently reported by the firmware through
`GetMemoryMap`. -/
def lastReported (log : List Event) : Option Nat :=
  Option.map (fun out => out.size) (lastGmmOut log)

/-- A firmware double for the termination state machine: every memory-map
query succeeds (size 0, descriptor size 40), page allocation and release
always succeed, and `ExitBootServices` rejects the map key on its first two
calls and accepts it on the third. -/
def fwC1 : FwModel :=
  { allocR := fun _ _ _ => Except.ok 4096
    freeR := fun _ _ _ => Except.ok ()
    gmmR := fun _ _ =>
      { status := Status.success, size := 0, key := 0, descriptor_size := 40,
        version := 1, entries := [] }
    ebsR := fun log _ _ => if ebsCount log ≤ 1 then Status.failure 1 else Status.success }

/-- A firmware double for the negotiation loop: the first `GetMemoryMap`
call reports the buffer too small with a required size of 12288 bytes
(3 pages) and every later call succeeds; allocations return distinct
page-aligned addresses; releases always succeed. -/
def fwC2 : FwModel :=
  { allocR := fun log _ _ => Except.ok (4096 + 4096 * allocCount log)
    freeR := fun _ _ _ => Except.ok ()
    gmmR := fun log _ =>
      if gmmCount log = 0 then
        { status := Status.failure 5, size := 12288, key := 0,
          descriptor_size := 0, version := 0, entries := [] }
      else
        { status := Status.success, size := 12288, key := 1,
          descriptor_size := 40, version := 1, entries := [] }
    ebsR := fun _ _ _ => Status.success }

/-- A firmware double like `fwC2` whose reported required size, 12289
bytes, is not a multiple of `PAGE_SIZE`. -/
def fwC3 : FwModel :=
  { allocR := fun log _ _ => Except.ok (4096 + 4096 * allocCount log)
    freeR := fun _ _ _ => Except.ok ()
    gmmR := fun log _ =>
      if gmmCount log = 0 then
        { status := Status.failure 5, size := 12289, key := 0,
          descriptor_size := 0, version := 0, entries := [] }
      else
        { status := Status.success, size := 12289, key := 1,
          descriptor_size := 40, version := 1, entries := [] }
    ebsR := fun _ _ _ => Status.success }

/-- A firmware double for the post-termination rewrite: the single
memory-map query succeeds and writes two descriptors, one tagged
`BootServicesData` with two trailing bytes and one tagged
`ConventionalMemory`; termination is accepted at once. -/
def fwC4 : FwModel :=
  { allocR := fun _ _ _ => Except.ok 4096
    freeR := fun _ _ _ => Except.ok ()
    gmmR := fun _ _ =>
      { status := Status.success, size := 84, key := 11, descriptor_size := 42,
        version := 1
        entries :=
          [({ Type' := MemoryType.mk 4, PhysicalStart := 8192, VirtualStart := 0,
              NumberOfPages := 2, Attribute := 8 }, [9, 9]),
           ({ Type' := MemoryType.mk 7, PhysicalStart := 16384, VirtualStart := 0,
              NumberOfPages := 1, Attribute := 0 }, [5, 5])] }
    ebsR := fun _ _ _ => Status.success }

/-- A default chunk used with `List.getD` when stating pointwise properties
of descriptor lists. -/
def dfltChunk : DescChunk :=
  ({ Type' := MemoryType.mk 0, PhysicalStart := 0, VirtualStart := 0,
     NumberOfPages := 0, Attribute := 0 }, [])

/-- C7: for every u32 raw memory-type code `n`, converting `MemoryType(n)`
to `NamedMemoryType` and back to `MemoryType` yields `MemoryType(n)` again;
this covers the unknown, OEM-specific and OS-loader-specific ranges. -/
theorem memoryType_roundtrip (n : Nat) (h : n < 4294967296) :
    memoryTypeOfNamed (namedOfMemoryType (MemoryType.mk n)) = MemoryType.mk n := by
  show memoryTypeOfNamed (namedOfMemoryTypeNum n) = MemoryType.mk n
  rcases Nat.lt_or_ge n 15 with hlt | hge
  · interval_cases n <;> decide
  · have he : namedOfMemoryTypeNum n =
        (if n ≤ 0x6fffffff then NamedMemoryType.UnknownMemoryType n
         else if n ≤ 0x7fffffff then NamedMemoryType.OEMSpecific (n - 0x70000000)
         else NamedMemoryType.OSLoaderSpecific (n - 0x80000000)) := by
      unfold namedOfMemoryTypeNum
      iterate 15 rw [if_neg (by omega)]
    rw [he]
    split_ifs <;> simp only [memoryTypeOfNamed, MemoryType.mk.injEq] <;> omega

/-- Witness for C7 at the OS-loader-specific code 0x80000005. -/
theorem memoryType_roundtrip_witness :
    (2147483653 : Nat) < 4294967296 ∧
      memoryTypeOfNamed (namedOfMemoryType (MemoryType.mk 2147483653)) =
        MemoryType.mk 2147483653 :=
  ⟨by decide, memoryType_roundtrip 2147483653 (by decide)⟩

/-- Auxiliary induction (on a length bound) behind the iterator-count
theorem: with a positive stride, the iterator yields exactly
`length / stride` items, each of full stride length. -/
theorem memoryMapIterItems_aux (s : Nat) (hs : 0 < s) :
    ∀ (n : Nat) (l : List Nat), l.length ≤ n →
      (memoryMapIterItems s l).length = l.length / s ∧
      ∀ c ∈ memoryMapIterItems s l, c.length = s := by
  intro n
  induction n with
  | zero =>
    intro l hl
    have hnil : l = [] := List.eq_nil_of_length_eq_zero (Nat.le_zero.mp hl)
    subst hnil
    simp [memoryMapIterItems, rustChunks]
  | succ n ih =>
    intro l hl
    obtain ⟨t, rfl⟩ : ∃ t, s = t + 1 := ⟨s - 1, by omega⟩
    match l with
    | [] => simp [memoryMapIterItems, rustChunks]
    | x :: xs =>
      rw [memoryMapIterItems, rustChunks]
      by_cases hlen : t + 1 ≤ (x :: xs).length
      · have htake : ((x :: xs).take (t + 1)).length = t + 1 := by
          rw [List.length_take]
          omega
        have hdrop : ((x :: xs).drop (t + 1)).length = (x :: xs).length - (t + 1) := by
          rw [List.length_drop]
        have hpos : (((x :: xs).take (t + 1)).length == t + 1) = true := by
          rw [htake]
          simp
        rw [List.takeWhile_cons, hpos, if_pos rfl]
        have hrec := ih ((x :: xs).drop (t + 1)) (by rw [hdrop]; simp at hl ⊢; omega)
        rw [memoryMapIterItems] at hrec
        constructor
        · rw [List.length_cons, hrec.1, hdrop, Nat.div_eq_sub_div (by omega) hlen]
        · intro c hc
          rcases List.mem_cons.mp hc with hc1 | hc2
          · rw [hc1, htake]
          · exact hrec.2 c hc2
      · have htake : ((x :: xs).take (t + 1)).length = (x :: xs).length := by
          rw [List.length_take]
          omega
        have hne : (((x :: xs).take (t + 1)).length == t + 1) = false := by
          rw [htake]
          simp only [beq_eq_false_iff_ne, ne_eq, List.length_cons]
          simp only [List.length_cons] at hlen
          omega
        rw [List.takeWhile_cons, hne, if_neg (by simp)]
        constructor
        · rw [Nat.div_eq_of_lt (by omega)]
          rfl
        · intro c hc
          cases hc

/-- C5: iterating a memory map with positive descriptor stride `S` over a
buffer of logical byte length `L` (the shared `next` logic of
`MemoryMapIterator` and `MemoryMapIteratorMut`) yields exactly `L / S`
(floor) items, each of length exactly `S`; a trailing partial chunk is
dropped, not yielded. -/
theorem memoryMap_iter_count (s : Nat) (hs : 0 < s) (l : List Nat) :
    (memoryMapIterItems s l).length = l.length / s ∧
    ∀ c ∈ memoryMapIterItems s l, c.length = s :=
  memoryMapIterItems_aux s hs l.length l (Nat.le_refl _)

/-- Witness for C5: stride 3 over a 7-byte buffer yields 2 items of
length 3. -/
theorem memoryMap_iter_count_witness :
    0 < 3 ∧
      ((memoryMapIterItems 3 [10, 11, 12, 13, 14, 15, 16]).length =
          [10, 11, 12, 13, 14, 15, 16].length / 3 ∧
        ∀ c ∈ memoryMapIterItems 3 [10, 11, 12, 13, 14, 15, 16], c.length = 3) :=
  ⟨by decide, memoryMap_iter_count 3 (by decide) [10, 11, 12, 13, 14, 15, 16]⟩

/-- Helper: when one negotiation iteration ends with an error, the newest
log entry is the failing `FreePages` or `AllocatePages` call and the error
returned is exactly that call's error. -/
theorem negotiateIter_done_error (fw : FwModel) (mt : MemoryType)
    (log log2 : List Event) (m : MemoryMap) (e : Error)
    (h : negotiateIter fw mt log m = (log2, NegotiateOut.done (Except.error e))) :
    (∃ p rest, log2 = Event.alloc mt p (Except.error e) :: rest) ∨
    (∃ a p rest, log2 = Event.free a p (Except.error e) :: rest) := by
  simp only [negotiateIter] at h
  split at h
  · simp at h
  · split at h
    · rename_i e1 heq
      simp only [Prod.mk.injEq, NegotiateOut.done.injEq, Except.error.injEq] at h
      obtain ⟨h1, h2⟩ := h
      subst h2
      subst h1
      exact Or.inr ⟨_, _, _, by rw [heq]⟩
    · split at h
      · rename_i e1 heq
        simp only [Prod.mk.injEq, NegotiateOut.done.injEq, Except.error.injEq] at h
        obtain ⟨h1, h2⟩ := h
        subst h2
        subst h1
        exact Or.inl ⟨_, _, by rw [heq]⟩
      · simp at h

/-- Helper: the negotiation loop only returns errors produced by a
`FreePages` or `AllocatePages` call, recorded as the newest log entry. -/
theorem getMemoryMapLoop_err (fw : FwModel) (mt : MemoryType) :
    ∀ (fuel : Nat) (log log2 : List Event) (m : MemoryMap) (e : Error),
      getMemoryMapLoop fw mt fuel log m = some (log2, Except.error e) →
      (∃ p rest, log2 = Event.alloc mt p (Except.error e) :: rest) ∨
      (∃ a p rest, log2 = Event.free a p (Except.error e) :: rest) := by
  intro fuel
  induction fuel with
  | zero =>
    intro log log2 m e h
    simp [getMemoryMapLoop] at h
  | succ fuel ih =>
    intro log log2 m e h
    rw [getMemoryMapLoop] at h
    cases hni : negotiateIter fw mt log m with
    | mk log1 r =>
      rw [hni] at h
      cases r with
      | done rr =>
        simp only [Option.some.injEq, Prod.mk.injEq] at h
        obtain ⟨h1, h2⟩ := h
        subst h1
        subst h2
        exact negotiateIter_done_error fw mt log _ m _ hni
      | next m1 => exact ih log1 log2 m1 e h

/-- C9: `get_memory_map` never surfaces a buffer-too-small condition: any
error it returns is the error of a failing `AllocatePages` or `FreePages`
call (recorded as the newest event of the final log); statuses of
`GetMemoryMap` itself are only ever tested against `SUCCESS` and retried,
never returned. -/
theorem get_memory_map_error_source (fw : FwModel) (mt : MemoryType)
    (fuel : Nat) (log log2 : List Event) (e : Error)
    (h : get_memory_map fw mt fuel log = some (log2, Outcome.err e)) :
    (∃ p rest, log2 = Event.alloc mt p (Except.error e) :: rest) ∨
    (∃ a p rest, log2 = Event.free a p (Except.error e) :: rest) := by
  simp only [get_memory_map] at h
  split at h
  · rename_i e1 heq
    simp only [Option.some.injEq, Prod.mk.injEq, Outcome.err.injEq] at h
    obtain ⟨h1, h2⟩ := h
    subst h2
    subst h1
    exact Or.inl ⟨_, _, by rw [heq]⟩
  · rename_i addr heq
    split at h
    · simp at h
    · rename_i log3 e1 hloop
      simp only [Option.some.injEq, Prod.mk.injEq, Outcome.err.injEq] at h
      obtain ⟨h1, h2⟩ := h
      subst h1
      subst h2
      exact getMemoryMapLoop_err fw mt fuel _ _ (initialMap addr) _ hloop
    · rename_i log3 m hloop
      split at h <;> simp at h

/-- Witness for C9: a firmware double whose very first `AllocatePages`
call fails with a distinctive code. -/
theorem get_memory_map_error_source_witness :
    (∃ p rest, [Event.alloc (MemoryType.mk 2) 1 (Except.error (Error.other 77))] =
        Event.alloc (MemoryType.mk 2) p (Except.error (Error.other 77)) :: rest) ∨
    (∃ a p rest, [Event.alloc (MemoryType.mk 2) 1 (Except.error (Error.other 77))] =
        Event.free a p (Except.error (Error.other 77)) :: rest) :=
  get_memory_map_error_source
    { allocR := fun _ _ _ => Except.error (Error.other 77)
      freeR := fun _ _ _ => Except.ok ()
      gmmR := fun _ _ =>
        { status := Status.success, size := 0, key := 0, descriptor_size := 40,
          version := 1, entries := [] }
      ebsR := fun _ _ _ => Status.success }
    (MemoryType.mk 2) 1 [] _ (Error.other 77) (by decide)

/-- Helper: when a negotiation iteration succeeds, the resulting map keeps
the allocation size it entered with and its populated size is bounded by
the firmware's success contract. -/
theorem negotiateIter_done_ok_bound (fw : FwModel) (mt : MemoryType)
    (Hsucc : ∀ l input, (fw.gmmR l input).status = Status.success →
      (fw.gmmR l input).size ≤ input.size)
    (log log2 : List Event) (m m2 : MemoryMap)
    (hm : m.size ≤ m.alloc_size * PAGE_SIZE)
    (h : negotiateIter fw mt log m = (log2, NegotiateOut.done (Except.ok m2))) :
    m2.size ≤ m2.alloc_size * PAGE_SIZE := by
  simp only [negotiateIter] at h
  split at h
  · rename_i hs
    simp only [Prod.mk.injEq, NegotiateOut.done.injEq, Except.ok.injEq] at h
    obtain ⟨h1, h2⟩ := h
    subst h2
    have hle := Hsucc log (gmmIn m) hs
    simp only [applyGmm, gmmIn] at hle ⊢
    exact le_trans hle hm
  · split at h
    · simp at h
    · split at h
      · simp at h
      · simp at h

/-- Helper: when a negotiation iteration regrows the buffer, the new map's
populated size is within the capacity of the freshly allocated pages. -/
theorem negotiateIter_next_bound (fw : FwModel) (mt : MemoryType)
    (log log2 : List Event) (m m1 : MemoryMap)
    (h : negotiateIter fw mt log m = (log2, NegotiateOut.next m1)) :
    m1.size ≤ m1.alloc_size * PAGE_SIZE := by
  simp only [negotiateIter] at h
  split at h
  · simp at h
  · split at h
    · simp at h
    · split at h
      · simp at h
      · rename_i addr heq
        simp only [Prod.mk.injEq, NegotiateOut.next.injEq] at h
        obtain ⟨h1, h2⟩ := h
        subst h2
        simp only [applyGmm, PAGE_SIZE]
        omega

/-- Helper: through the whole negotiation loop, a map returned with `Ok`
satisfies the size-capacity bound whenever the firmware respects the
success contract (on success the written size fits the announced buffer
size). -/
theorem getMemoryMapLoop_size_bound (fw : FwModel) (mt : MemoryType)
    (Hsucc : ∀ l input, (fw.gmmR l input).status = Status.success →
      (fw.gmmR l input).size ≤ input.size) :
    ∀ (fuel : Nat) (log log2 : List Event) (m m2 : MemoryMap),
      m.size ≤ m.alloc_size * PAGE_SIZE →
      getMemoryMapLoop fw mt fuel log m = some (log2, Except.ok m2) →
      m2.size ≤ m2.alloc_size * PAGE_SIZE := by
  intro fuel
  induction fuel with
  | zero =>
    intro log log2 m m2 hm h
    simp [getMemoryMapLoop] at h
  | succ fuel ih =>
    intro log log2 m m2 hm h
    rw [getMemoryMapLoop] at h
    cases hni : negotiateIter fw mt log m with
    | mk log1 r =>
      rw [hni] at h
      cases r with
      | done rr =>
        simp only [Option.some.injEq, Prod.mk.injEq] at h
        obtain ⟨h1, h2⟩ := h
        subst h1
        subst h2
        exact negotiateIter_done_ok_bound fw mt Hsucc log _ m _ hm hni
      | next m1 =>
        exact ih log1 log2 m1 m2 (negotiateIter_next_bound fw mt log _ m m1 hni) h

/-- C10: under the firmware contract that a successful `GetMemoryMap`
writes a size no larger than the buffer size it was given, every
`MemoryMap` returned by `get_memory_map` has its populated byte length
within the capacity of its allocated pages, so `buffer`, `iter` and
`iter_mut` only ever view bytes inside the allocation. -/
theorem get_memory_map_size_bound (fw : FwModel) (mt : MemoryType)
    (fuel : Nat) (log log2 : List Event) (m : MemoryMap)
    (Hsucc : ∀ l input, (fw.gmmR l input).status = Status.success →
      (fw.gmmR l input).size ≤ input.size)
    (h : get_memory_map fw mt fuel log = some (log2, Outcome.ok m)) :
    m.size ≤ m.alloc_size * PAGE_SIZE := by
  simp only [get_memory_map] at h
  split at h
  · simp at h
  · rename_i addr heq
    split at h
    · simp at h
    · simp at h
    · rename_i log3 m1 hloop
      split at h
      · simp only [Option.some.injEq, Prod.mk.injEq, Outcome.ok.injEq] at h
        obtain ⟨h1, h2⟩ := h
        subst h1
        subst h2
        exact getMemoryMapLoop_size_bound fw mt Hsucc fuel _ _ (initialMap addr) _
          (by simp [initialMap]) hloop
      · simp at h

/-- Witness for C10 on a one-call firmware double. -/
theorem get_memory_map_size_bound_witness :
    ({ buffer := 4096, alloc_size := 1, size := 0, key := 0,
       descriptor_size := 40, version := 1, entries := [] } : MemoryMap).size ≤
      ({ buffer := 4096, alloc_size := 1, size := 0, key := 0,
         descriptor_size := 40, version := 1, entries := [] } : MemoryMap).alloc_size *
        PAGE_SIZE :=
  get_memory_map_size_bound
    { allocR := fun _ _ _ => Except.ok 4096
      freeR := fun _ _ _ => Except.ok ()
      gmmR := fun _ _ =>
        { status := Status.success, size := 0, key := 0, descriptor_size := 40,
          version := 1, entries := [] }
      ebsR := fun _ _ _ => Status.success }
    (MemoryType.mk 2) 1 []
    [Event.gmm
        { size := 4096, key := 0, descriptor_size := 0, version := 0, buffer := 4096 }
        { status := Status.success, size := 0, key := 0, descriptor_size := 40,
          version := 1, entries := [] },
      Event.alloc (MemoryType.mk 2) 1 (Except.ok 4096)]
    { buffer := 4096, alloc_size := 1, size := 0, key := 0,
      descriptor_size := 40, version := 1, entries := [] }
    (fun _ _ _ => Nat.zero_le _) (by decide)

/-- C6: the negotiation loop's success path runs the `assert!` at boot.rs
lines 272-275: if the reported descriptor stride is smaller than
`size_of::<MemoryDescriptor>()` the function halts (`Outcome.panicked`)
instead of returning, and consequently every map `get_memory_map` returns
has `descriptor_size ≥ DESCRIPTOR_SIZE`. -/
theorem get_memory_map_min_descriptor_size (fw : FwModel) (mt : MemoryType)
    (fuel : Nat) (log log2 : List Event) (m : MemoryMap) :
    (get_memory_map fw mt fuel log = some (log2, Outcome.ok m) →
      DESCRIPTOR_SIZE ≤ m.descriptor_size) ∧
    (∀ (addr : Nat), fw.allocR log mt 1 = Except.ok addr →
      getMemoryMapLoop fw mt fuel (Event.alloc mt 1 (Except.ok addr) :: log)
          (initialMap addr) = some (log2, Except.ok m) →
      m.descriptor_size < DESCRIPTOR_SIZE →
      get_memory_map fw mt fuel log = some (log2, Outcome.panicked)) := by
  constructor
  · intro h
    simp only [get_memory_map] at h
    split at h
    · simp at h
    · split at h
      · simp at h
      · simp at h
      · split at h
        · rename_i hge
          simp only [Option.some.injEq, Prod.mk.injEq, Outcome.ok.injEq] at h
          obtain ⟨h1, h2⟩ := h
          subst h2
          exact hge
        · simp at h
  · intro addr halloc hloop hlt
    simp only [get_memory_map, halloc, hloop]
    rw [if_neg (by omega)]

/-- Witness for C6: a firmware double that reports a 16-byte stride makes
`get_memory_map` halt at the assertion, and a compliant double returns a
map with a full-size stride. -/
theorem get_memory_map_min_descriptor_size_witness :
    (get_memory_map
        { allocR := fun _ _ _ => Except.ok 4096
          freeR := fun _ _ _ => Except.ok ()
          gmmR := fun _ _ =>
            { status := Status.success, size := 0, key := 0, descriptor_size := 16,
              version := 1, entries := [] }
          ebsR := fun _ _ _ => Status.success }
        (MemoryType.mk 2) 1 [] = some
          ([Event.gmm
              { size := 4096, key := 0, descriptor_size := 0, version := 0, buffer := 4096 }
              { status := Status.success, size := 0, key := 0, descriptor_size := 16,
                version := 1, entries := [] },
            Event.alloc (MemoryType.mk 2) 1 (Except.ok 4096)],
           Outcome.panicked)) := by
  have h := (get_memory_map_min_descriptor_size
    { allocR := fun _ _ _ => Except.ok 4096
      freeR := fun _ _ _ => Except.ok ()
      gmmR := fun _ _ =>
        { status := Status.success, size := 0, key := 0, descriptor_size := 16,
          version := 1, entries := [] }
      ebsR := fun _ _ _ => Status.success }
    (MemoryType.mk 2) 1 []
    [Event.gmm
        { size := 4096, key := 0, descriptor_size := 0, version := 0, buffer := 4096 }
        { status := Status.success, size := 0, key := 0, descriptor_size := 16,
          version := 1, entries := [] },
      Event.alloc (MemoryType.mk 2) 1 (Except.ok 4096)]
    { buffer := 4096, alloc_size := 1, size := 0, key := 0, descriptor_size := 16,
      version := 1, entries := [] }).2 4096 (by decide) (by decide) (by decide)
  exact h

/-- Helper: a failed-and-regrown negotiation iteration produces a map whose
size is exactly the size the firmware just reported, and leaves that report
as the most recent `GetMemoryMap` output in the log. -/
theorem negotiateIter_next_facts (fw : FwModel) (mt : MemoryType)
    (log log2 : List Event) (m m1 : MemoryMap)
    (h : negotiateIter fw mt log m = (log2, NegotiateOut.next m1)) :
    m1.size = (fw.gmmR log (gmmIn m)).size ∧
    lastReported log2 = some (fw.gmmR log (gmmIn m)).size := by
  simp only [negotiateIter] at h
  split at h
  · simp at h
  · split at h
    · simp at h
    · split at h
      · simp at h
      · rename_i addr heq
        simp only [Prod.mk.injEq, NegotiateOut.next.injEq] at h
        obtain ⟨h1, h2⟩ := h
        subst h1
        subst h2
        constructor
        · simp [applyGmm]
        · simp [lastReported, lastGmmOut, applyGmm]

/-- Helper: under the monotone-firmware hypotheses, two loop iterations
always suffice for the negotiation loop to return. -/
theorem getMemoryMapLoop_two_iterations (fw : FwModel) (mt : MemoryType)
    (H1 : ∀ l input R, lastReported l = some R → R ≤ input.size →
      (fw.gmmR l input).status = Status.success) :
    ∀ (log : List Event) (m : MemoryMap),
      (getMemoryMapLoop fw mt 2 log m).isSome = true := by
  intro log m
  rw [getMemoryMapLoop]
  split
  · rfl
  · rename_i log1 m1 heq
    obtain ⟨hsize, hlast⟩ := negotiateIter_next_facts fw mt log log1 m m1 heq
    rw [getMemoryMapLoop]
    split
    · rfl
    · rename_i log2 m2 heq2
      exfalso
      have hstat : (fw.gmmR log1 (gmmIn m1)).status = Status.success :=
        H1 log1 (gmmIn m1) ((fw.gmmR log (gmmIn m)).size) hlast
          (le_of_eq (by simp [gmmIn, hsize]))
      simp only [negotiateIter, if_pos hstat] at heq2
      simp at heq2

/-- C8: against any deterministic firmware model whose reported required
size never shrinks below the previously reported value and whose fill call
succeeds whenever the supplied size is at least the previously reported
size, and whose page allocations and releases always succeed, the
negotiation loop of `get_memory_map` terminates (two iterations of fuel
suffice). -/
theorem get_memory_map_terminates (fw : FwModel) (mt : MemoryType) (log : List Event)
    (H1 : ∀ l input R, lastReported l = some R → R ≤ input.size →
      (fw.gmmR l input).status = Status.success)
    (H2 : ∀ l input R, lastReported l = some R → R ≤ (fw.gmmR l input).size)
    (H3a : ∀ (l : List Event) (mt2 : MemoryType) (p : Nat), ∃ a, fw.allocR l mt2 p = Except.ok a)
    (H3b : ∀ (l : List Event) (a p : Nat), fw.freeR l a p = Except.ok ()) :
    ∃ fuel r, get_memory_map fw mt fuel log = some r := by
  refine ⟨2, ?_⟩
  obtain ⟨a0, ha0⟩ := H3a log mt 1
  simp only [get_memory_map, ha0]
  have hloop := getMemoryMapLoop_two_iterations fw mt H1
    (Event.alloc mt 1 (Except.ok a0) :: log) (initialMap a0)
  obtain ⟨⟨log2, r2⟩, hL⟩ := Option.isSome_iff_exists.mp hloop
  rw [hL]
  cases r2 with
  | error e => exact ⟨_, rfl⟩
  | ok m2 =>
    by_cases hd : DESCRIPTOR_SIZE ≤ m2.descriptor_size
    · exact ⟨(log2, Outcome.ok m2), by simp [hd]⟩
    · exact ⟨(log2, Outcome.panicked), by simp [hd]⟩

/-- A firmware double for the termination argument: every query succeeds
and echoes back the most recently reported size. -/
def fwEchoC8 : FwModel :=
  { allocR := fun _ _ _ => Except.ok 4096
    freeR := fun _ _ _ => Except.ok ()
    gmmR := fun l _ =>
      { status := Status.success, size := (lastReported l).getD 0, key := 0,
        descriptor_size := 40, version := 1, entries := [] }
    ebsR := fun _ _ _ => Status.success }

/-- Witness for C8 on the echoing firmware double. -/
theorem get_memory_map_terminates_witness :
    ∃ fuel r, get_memory_map fwEchoC8 (MemoryType.mk 2) fuel [] = some r :=
  get_memory_map_terminates fwEchoC8 (MemoryType.mk 2) []
    (fun _ _ _ _ _ => rfl)
    (fun l _ R h => by simp [fwEchoC8, h])
    (fun _ _ _ => ⟨4096, rfl⟩)
    (fun _ _ _ => rfl)

/-- Helper: a successful negotiation iteration breaks with a map whose
ghost entries (and key) are exactly what the newest `GetMemoryMap` call,
now the head of the log, wrote. -/
theorem negotiateIter_done_ok_facts (fw : FwModel) (mt : MemoryType)
    (log log2 : List Event) (m m2 : MemoryMap)
    (h : negotiateIter fw mt log m = (log2, NegotiateOut.done (Except.ok m2))) :
    ∃ input out rest, log2 = Event.gmm input out :: rest ∧ m2.entries = out.entries := by
  simp only [negotiateIter] at h
  split at h
  · simp only [Prod.mk.injEq, NegotiateOut.done.injEq, Except.ok.injEq] at h
    obtain ⟨h1, h2⟩ := h
    subst h1
    subst h2
    exact ⟨_, _, _, rfl, by simp [applyGmm]⟩
  · split at h
    · simp at h
    · split at h
      · simp at h
      · simp at h

/-- Helper: the negotiation loop's successful result carries exactly the
entries written by the most recent `GetMemoryMap` call, which heads the
final log. -/
theorem getMemoryMapLoop_ok_facts (fw : FwModel) (mt : MemoryType) :
    ∀ (fuel : Nat) (log log2 : List Event) (m m2 : MemoryMap),
      getMemoryMapLoop fw mt fuel log m = some (log2, Except.ok m2) →
      ∃ input out rest, log2 = Event.gmm input out :: rest ∧ m2.entries = out.entries := by
  intro fuel
  induction fuel with
  | zero =>
    intro log log2 m m2 h
    simp [getMemoryMapLoop] at h
  | succ fuel ih =>
    intro log log2 m m2 h
    rw [getMemoryMapLoop] at h
    cases hni : negotiateIter fw mt log m with
    | mk log1 r =>
      rw [hni] at h
      cases r with
      | done rr =>
        simp only [Option.some.injEq, Prod.mk.injEq] at h
        obtain ⟨h1, h2⟩ := h
        subst h1
        subst h2
        exact negotiateIter_done_ok_facts fw mt log _ m _ hni
      | next m1 => exact ih log1 log2 m1 m2 h

/-- Helper: a map returned by `get_memory_map` carries exactly the entries
of the most recent `GetMemoryMap` call, which heads the final log. -/
theorem get_memory_map_ok_facts (fw : FwModel) (mt : MemoryType)
    (fuel : Nat) (log log2 : List Event) (m : MemoryMap)
    (h : get_memory_map fw mt fuel log = some (log2, Outcome.ok m)) :
    ∃ input out rest, log2 = Event.gmm input out :: rest ∧ m.entries = out.entries := by
  simp only [get_memory_map] at h
  split at h
  · simp at h
  · split at h
    · simp at h
    · simp at h
    · rename_i log3 m1 hloop
      split at h
      · simp only [Option.some.injEq, Prod.mk.injEq, Outcome.ok.injEq] at h
        obtain ⟨h1, h2⟩ := h
        subst h1
        subst h2
        exact getMemoryMapLoop_ok_facts fw mt fuel _ _ (initialMap _) _ hloop
      · simp at h

/-- Helper: a successful exit of the recovery loop leaves the log headed by
the accepted `ExitBootServices` call, preceded by the `GetMemoryMap` call
whose entries the final map carries. -/
theorem exitLoop_ok_facts (fw : FwModel) (handle : Nat) :
    ∀ (fuel : Nat) (log log2 : List Event) (m m2 : MemoryMap),
      exitLoop fw handle fuel log m = some (log2, (Except.ok (), m2)) →
      ∃ input out k st rest,
        log2 = Event.ebs handle k st :: Event.gmm input out :: rest ∧
        m2.entries = out.entries := by
  intro fuel
  induction fuel with
  | zero =>
    intro log log2 m m2 h
    simp [exitLoop] at h
  | succ fuel ih =>
    intro log log2 m m2 h
    simp only [exitLoop] at h
    split at h
    · split at h
      · simp only [Option.some.injEq, Prod.mk.injEq] at h
        obtain ⟨h1, h2, h3⟩ := h
        subst h1
        subst h3
        exact ⟨_, _, _, _, _, rfl, by simp [applyGmm]⟩
      · exact ih _ _ _ _ h
    · simp at h

/-- Helper: the element-wise effect of the rewrite on a descriptor list. -/
theorem exit_rewrite_getD (entries : List DescChunk) :
    ∀ (i : Nat), i < entries.length →
      (exit_boot_services_rewrite entries).getD i dfltChunk =
        (exitRewriteDesc (entries.getD i dfltChunk).1, (entries.getD i dfltChunk).2) := by
  induction entries with
  | nil =>
    intro i hi
    simp at hi
  | cons c cs ih =>
    intro i hi
    cases i with
    | zero => simp [exit_boot_services_rewrite]
    | succ j =>
      simp only [exit_boot_services_rewrite, List.map_cons, List.getD_cons_succ] at ih ⊢
      exact ih j (by simp at hi; omega)

/-- Helper: `exitRewriteDesc` rewrites only the boot-services tags, to the
conventional tag, and never touches the other fields. -/
theorem exitRewriteDesc_frame (d : MemoryDescriptor) :
    ((d.Type' = MemoryType.ofName NamedMemoryType.BootServicesCode ∨
      d.Type' = MemoryType.ofName NamedMemoryType.BootServicesData) →
      (exitRewriteDesc d).Type' = MemoryType.ofName NamedMemoryType.ConventionalMemory) ∧
    (¬(d.Type' = MemoryType.ofName NamedMemoryType.BootServicesCode ∨
       d.Type' = MemoryType.ofName NamedMemoryType.BootServicesData) →
      exitRewriteDesc d = d) ∧
    (exitRewriteDesc d).PhysicalStart = d.PhysicalStart ∧
    (exitRewriteDesc d).VirtualStart = d.VirtualStart ∧
    (exitRewriteDesc d).NumberOfPages = d.NumberOfPages ∧
    (exitRewriteDesc d).Attribute = d.Attribute := by
  unfold exitRewriteDesc
  split_ifs with hcond <;> simp_all

/-- C4: after a successful `exit_boot_services`, the returned map's
entries are exactly the entries of the final `GetMemoryMap` snapshot with
every `BootServicesCode`/`BootServicesData` descriptor retagged as
`ConventionalMemory`; no other descriptor is changed, and every field
other than `Type` (including the trailing bytes of each chunk beyond the
known prefix) is unchanged. -/
theorem exit_boot_services_rewrite_spec (fw : FwModel) (handle fuel : Nat)
    (log logF : List Event) (mF : MemoryMap)
    (h : exit_boot_services fw handle fuel log = some (logF, Outcome.ok mF)) :
    ∃ out, lastGmmOut logF = some out ∧
      mF.entries = exit_boot_services_rewrite out.entries ∧
      mF.entries.length = out.entries.length ∧
      ∀ i, i < out.entries.length →
        (((out.entries.getD i dfltChunk).1.Type' =
              MemoryType.ofName NamedMemoryType.BootServicesCode ∨
          (out.entries.getD i dfltChunk).1.Type' =
              MemoryType.ofName NamedMemoryType.BootServicesData) →
          (mF.entries.getD i dfltChunk).1.Type' =
            MemoryType.ofName NamedMemoryType.ConventionalMemory) ∧
        (¬((out.entries.getD i dfltChunk).1.Type' =
              MemoryType.ofName NamedMemoryType.BootServicesCode ∨
           (out.entries.getD i dfltChunk).1.Type' =
              MemoryType.ofName NamedMemoryType.BootServicesData) →
          (mF.entries.getD i dfltChunk).1 = (out.entries.getD i dfltChunk).1) ∧
        (mF.entries.getD i dfltChunk).1.PhysicalStart =
          (out.entries.getD i dfltChunk).1.PhysicalStart ∧
        (mF.entries.getD i dfltChunk).1.VirtualStart =
          (out.entries.getD i dfltChunk).1.VirtualStart ∧
        (mF.entries.getD i dfltChunk).1.NumberOfPages =
          (out.entries.getD i dfltChunk).1.NumberOfPages ∧
        (mF.entries.getD i dfltChunk).1.Attribute =
          (out.entries.getD i dfltChunk).1.Attribute ∧
        (mF.entries.getD i dfltChunk).2 = (out.entries.getD i dfltChunk).2 := by
  have main : ∃ out, lastGmmOut logF = some out ∧
      mF.entries = exit_boot_services_rewrite out.entries := by
    simp only [exit_boot_services] at h
    split at h
    · simp at h
    · simp at h
    · simp at h
    · rename_i log1 m hget
      split at h
      · simp only [Option.some.injEq, Prod.mk.injEq, Outcome.ok.injEq] at h
        obtain ⟨h1, h2⟩ := h
        subst h1
        subst h2
        obtain ⟨input, out, rest, hsh, hent⟩ := get_memory_map_ok_facts fw _ fuel log _ m hget
        refine ⟨out, ?_, ?_⟩
        · rw [hsh]
          simp [lastGmmOut]
        · simp [hent]
      · split at h
        · simp at h
        · simp at h
        · rename_i log3 m3 hexit
          simp only [Option.some.injEq, Prod.mk.injEq, Outcome.ok.injEq] at h
          obtain ⟨h1, h2⟩ := h
          subst h1
          subst h2
          obtain ⟨input, out, k, st, rest, hsh, hent⟩ := exitLoop_ok_facts fw handle fuel _ _ m _ hexit
          refine ⟨out, ?_, ?_⟩
          · rw [hsh]
            simp [lastGmmOut]
          · simp [hent]
  obtain ⟨out, hlast, hrw⟩ := main
  refine ⟨out, hlast, hrw, ?_, ?_⟩
  · rw [hrw]
    simp [exit_boot_services_rewrite]
  · intro i hi
    rw [hrw, exit_rewrite_getD out.entries i hi]
    have hframe := exitRewriteDesc_frame (out.entries.getD i dfltChunk).1
    exact ⟨hframe.1, fun hc => by rw [hframe.2.1 hc], hframe.2.2.1, hframe.2.2.2.1,
      hframe.2.2.2.2.1, hframe.2.2.2.2.2, rfl⟩

/-- The sequence of page counts requested from `AllocatePages` in a log
(newest call first). -/
def allocPages (log : List Event) : List Nat :=
  log.filterMap (fun ev =>
    match ev with
    | Event.alloc _ p _ => some p
    | _ => none)

/-- The final log of `exit_boot_services fwC1 7 5 []` (newest event
first): three termination calls, the first two rejected. -/
def c1log : List Event :=
  [Event.ebs 7 0 Status.success,
   Event.gmm
     { size := 0, key := 0, descriptor_size := 40, version := 1, buffer := 4096 }
     { status := Status.success, size := 0, key := 0, descriptor_size := 40,
       version := 1, entries := [] },
   Event.ebs 7 0 (Status.failure 1),
   Event.gmm
     { size := 0, key := 0, descriptor_size := 40, version := 1, buffer := 4096 }
     { status := Status.success, size := 0, key := 0, descriptor_size := 40,
       version := 1, entries := [] },
   Event.ebs 7 0 (Status.failure 1),
   Event.gmm
     { size := 4096, key := 0, descriptor_size := 0, version := 0, buffer := 4096 }
     { status := Status.success, size := 0, key := 0, descriptor_size := 40,
       version := 1, entries := [] },
   Event.alloc (MemoryType.mk 2) 1 (Except.ok 4096)]

/-- The map `exit_boot_services fwC1 7 5 []` returns. -/
def c1map : MemoryMap :=
  { buffer := 4096, alloc_size := 1, size := 0, key := 0, descriptor_size := 40,
    version := 1, entries := [] }

/-- C1 counterexample: against `fwC1` — a firmware that rejects the map
key twice in a row while every allocation-free re-query succeeds —
`exit_boot_services` does not return the aborted error after one recovery
attempt: it issues a third termination call (three `ExitBootServices`
events in the log) and returns successfully. -/
theorem exit_boot_services_retry_counterexample :
    exit_boot_services fwC1 7 5 [] = some (c1log, Outcome.ok c1map) ∧
    ebsCount c1log = 3 := by
  constructor
  · decide
  · decide

/-- C1 amended: the recovery loop of `exit_boot_services` returns
`Error::Aborted` exactly when an allocation-free re-query fails (the final
log is then headed by the failed `GetMemoryMap` event); when the re-query
succeeds and the termination call is rejected again, the loop simply runs
another iteration — issuing a further termination call — instead of
aborting. -/
theorem exitLoop_abort_only_on_requery_failure (fw : FwModel) (handle : Nat) :
    (∀ (fuel : Nat) (log log2 : List Event) (m m2 : MemoryMap) (e : Error),
      exitLoop fw handle fuel log m = some (log2, (Except.error e, m2)) →
      e = Error.Aborted ∧
      ∃ input out rest, log2 = Event.gmm input out :: rest ∧
        ¬ out.status = Status.success) ∧
    (∀ (fuel : Nat) (log : List Event) (m : MemoryMap),
      (fw.gmmR log (gmmIn m)).status = Status.success →
      (fw.ebsR (Event.gmm (gmmIn m) (fw.gmmR log (gmmIn m)) :: log) handle
          (applyGmm m (fw.gmmR log (gmmIn m))).key).isOk = false →
      exitLoop fw handle (fuel + 1) log m =
        exitLoop fw handle fuel
          (Event.ebs handle (applyGmm m (fw.gmmR log (gmmIn m))).key
              (fw.ebsR (Event.gmm (gmmIn m) (fw.gmmR log (gmmIn m)) :: log) handle
                (applyGmm m (fw.gmmR log (gmmIn m))).key) ::
            Event.gmm (gmmIn m) (fw.gmmR log (gmmIn m)) :: log)
          (applyGmm m (fw.gmmR log (gmmIn m)))) := by
  constructor
  · intro fuel
    induction fuel with
    | zero =>
      intro log log2 m m2 e h
      simp [exitLoop] at h
    | succ fuel ih =>
      intro log log2 m m2 e h
      simp only [exitLoop] at h
      split at h
      · split at h
        · simp at h
        · exact ih _ _ _ _ _ h
      · rename_i hs
        simp only [Option.some.injEq, Prod.mk.injEq, Except.error.injEq] at h
        obtain ⟨h1, h2, h3⟩ := h
        subst h1
        subst h3
        exact ⟨h2.symm, _, _, _, rfl, hs⟩
  · intro fuel log m h1 h2
    simp only [exitLoop]
    rw [if_pos h1, h2]
    rw [if_neg (by simp)]

/-- The firmware double whose re-query fails at once, driving the recovery
loop to `Aborted`. -/
def fwAbortW : FwModel :=
  { allocR := fun _ _ _ => Except.ok 0
    freeR := fun _ _ _ => Except.ok ()
    gmmR := fun _ _ =>
      { status := Status.failure 9, size := 0, key := 0, descriptor_size := 0,
        version := 0, entries := [] }
    ebsR := fun _ _ _ => Status.failure 1 }

/-- Witness for the amended C1: part one applied to a failing re-query run
of `fwAbortW`, part two applied to `fwC1`, whose re-query succeeds while
termination is rejected. -/
theorem exitLoop_abort_only_witness :
    (Error.Aborted = Error.Aborted ∧
      ∃ input out rest,
        [Event.gmm
            { size := 4096, key := 0, descriptor_size := 0, version := 0, buffer := 0 }
            { status := Status.failure 9, size := 0, key := 0, descriptor_size := 0,
              version := 0, entries := [] }] = Event.gmm input out :: rest ∧
          ¬ out.status = Status.success) ∧
    exitLoop fwC1 7 (0 + 1) [] (initialMap 4096) =
      exitLoop fwC1 7 0
        (Event.ebs 7 (applyGmm (initialMap 4096) (fwC1.gmmR [] (gmmIn (initialMap 4096)))).key
            (fwC1.ebsR
              (Event.gmm (gmmIn (initialMap 4096)) (fwC1.gmmR [] (gmmIn (initialMap 4096))) :: [])
              7 (applyGmm (initialMap 4096) (fwC1.gmmR [] (gmmIn (initialMap 4096)))).key) ::
          Event.gmm (gmmIn (initialMap 4096)) (fwC1.gmmR [] (gmmIn (initialMap 4096))) :: [])
        (applyGmm (initialMap 4096) (fwC1.gmmR [] (gmmIn (initialMap 4096)))) :=
  ⟨(exitLoop_abort_only_on_requery_failure fwAbortW 7).1 1 []
      [Event.gmm
          { size := 4096, key := 0, descriptor_size := 0, version := 0, buffer := 0 }
          { status := Status.failure 9, size := 0, key := 0, descriptor_size := 0,
            version := 0, entries := [] }]
      (initialMap 0)
      { buffer := 0, alloc_size := 1, size := 0, key := 0, descriptor_size := 0,
        version := 0, entries := [] }
      Error.Aborted (by decide),
    (exitLoop_abort_only_on_requery_failure fwC1 7).2 0 [] (initialMap 4096)
      (by decide) (by decide)⟩

/-- The final log of `get_memory_map fwC2 (MemoryType.mk 2) 2 []` (newest
event first): the one-page buffer allocated at 4096 is released with the
page count 4 — the freshly computed `alloc_size`, not the count it was
allocated with. -/
def c2log : List Event :=
  [Event.gmm
     { size := 12288, key := 0, descriptor_size := 0, version := 0, buffer := 8192 }
     { status := Status.success, size := 12288, key := 1, descriptor_size := 40,
       version := 1, entries := [] },
   Event.alloc (MemoryType.mk 2) 4 (Except.ok 8192),
   Event.free 4096 4 (Except.ok ()),
   Event.gmm
     { size := 4096, key := 0, descriptor_size := 0, version := 0, buffer := 4096 }
     { status := Status.failure 5, size := 12288, key := 0, descriptor_size := 0,
       version := 0, entries := [] },
   Event.alloc (MemoryType.mk 2) 1 (Except.ok 4096)]

/-- The map `get_memory_map fwC2 (MemoryType.mk 2) 2 []` returns. -/
def c2map : MemoryMap :=
  { buffer := 8192, alloc_size := 4, size := 12288, key := 1, descriptor_size := 40,
    version := 1, entries := [] }

/-- C2: evaluation of the negotiation loop at the failing input.  The
buffer allocated with one page at address 4096 is released before the new
allocation — but with page count 4 (the already-updated `alloc_size`),
never with the count 1 it was allocated with, because boot.rs line 264
overwrites `alloc_size` before the `free_pages` call on line 266. -/
theorem get_memory_map_free_count_bug :
    get_memory_map fwC2 (MemoryType.mk 2) 2 [] = some (c2log, Outcome.ok c2map) ∧
    Event.alloc (MemoryType.mk 2) 1 (Except.ok 4096) ∈ c2log ∧
    Event.free 4096 4 (Except.ok ()) ∈ c2log ∧
    ¬ Event.free 4096 1 (Except.ok ()) ∈ c2log := by
  refine ⟨by decide, by decide, by decide, by decide⟩

/-- The final log of `get_memory_map fwC3 (MemoryType.mk 2) 2 []` (newest
event first): the reported size 12289 leads to a 4-page regrow. -/
def c3log : List Event :=
  [Event.gmm
     { size := 12289, key := 0, descriptor_size := 0, version := 0, buffer := 8192 }
     { status := Status.success, size := 12289, key := 1, descriptor_size := 40,
       version := 1, entries := [] },
   Event.alloc (MemoryType.mk 2) 4 (Except.ok 8192),
   Event.free 4096 4 (Except.ok ()),
   Event.gmm
     { size := 4096, key := 0, descriptor_size := 0, version := 0, buffer := 4096 }
     { status := Status.failure 5, size := 12289, key := 0, descriptor_size := 0,
       version := 0, entries := [] },
   Event.alloc (MemoryType.mk 2) 1 (Except.ok 4096)]

/-- The map `get_memory_map fwC3 (MemoryType.mk 2) 2 []` returns. -/
def c3map : MemoryMap :=
  { buffer := 8192, alloc_size := 4, size := 12289, key := 1, descriptor_size := 40,
    version := 1, entries := [] }

/-- C3 counterexample: when the firmware reports a required size of 12289
bytes (not a multiple of `PAGE_SIZE`), the regrow allocates
`12289 / PAGE_SIZE + 1 = 4` pages — the only page counts ever requested
are 4 and the initial 1 — whereas `ceil(12289 / PAGE_SIZE) + 1 = 5`. -/
theorem get_memory_map_regrow_counterexample :
    get_memory_map fwC3 (MemoryType.mk 2) 2 [] = some (c3log, Outcome.ok c3map) ∧
    allocPages c3log = [4, 1] ∧
    (12289 + PAGE_SIZE - 1) / PAGE_SIZE + 1 = 5 := by
  refine ⟨by decide, by decide, by decide⟩

/-- C3 amended: in every negotiation iteration where the firmware reported
the buffer too small with byte size `S`, the regrown buffer is allocated
with exactly `S / PAGE_SIZE + 1` pages (floor division — one more page
than needed when `S` is a multiple of `PAGE_SIZE`, exactly
`ceil(S / PAGE_SIZE)` otherwise). -/
theorem negotiateIter_regrow_alloc (fw : FwModel) (mt : MemoryType)
    (log log2 : List Event) (m m1 : MemoryMap)
    (hfail : ¬ (fw.gmmR log (gmmIn m)).status = Status.success)
    (h : negotiateIter fw mt log m = (log2, NegotiateOut.next m1)) :
    m1.alloc_size = (fw.gmmR log (gmmIn m)).size / PAGE_SIZE + 1 ∧
    ∃ addr rest, fw.allocR rest mt m1.alloc_size = Except.ok addr ∧
      m1.buffer = addr ∧
      log2 = Event.alloc mt m1.alloc_size (Except.ok addr) :: rest := by
  simp only [negotiateIter] at h
  split at h
  · simp at h
  · split at h
    · simp at h
    · split at h
      · simp at h
      · rename_i addr heq
        simp only [Prod.mk.injEq, NegotiateOut.next.injEq] at h
        obtain ⟨h1, h2⟩ := h
        subst h1
        subst h2
        refine ⟨by simp [applyGmm], addr, _, heq, rfl, ?_⟩
        rw [heq]

/-- Witness for the amended C3 on the `fwC3` double: the regrow after the
12289-byte report allocates 4 pages. -/
theorem negotiateIter_regrow_alloc_witness :
    ({ buffer := 8192, alloc_size := 4, size := 12289, key := 0, descriptor_size := 0,
       version := 0, entries := [] } : MemoryMap).alloc_size =
      (fwC3.gmmR [Event.alloc (MemoryType.mk 2) 1 (Except.ok 4096)]
        (gmmIn (initialMap 4096))).size / PAGE_SIZE + 1 ∧
    ∃ addr rest,
      fwC3.allocR rest (MemoryType.mk 2)
          ({ buffer := 8192, alloc_size := 4, size := 12289, key := 0,
             descriptor_size := 0, version := 0, entries := [] } : MemoryMap).alloc_size =
        Except.ok addr ∧
      ({ buffer := 8192, alloc_size := 4, size := 12289, key := 0, descriptor_size := 0,
         version := 0, entries := [] } : MemoryMap).buffer = addr ∧
      [Event.alloc (MemoryType.mk 2) 4 (Except.ok 8192),
       Event.free 4096 4 (Except.ok ()),
       Event.gmm
         { size := 4096, key := 0, descriptor_size := 0, version := 0, buffer := 4096 }
         { status := Status.failure 5, size := 12289, key := 0, descriptor_size := 0,
           version := 0, entries := [] },
       Event.alloc (MemoryType.mk 2) 1 (Except.ok 4096)] =
        Event.alloc (MemoryType.mk 2)
          ({ buffer := 8192, alloc_size := 4, size := 12289, key := 0,
             descriptor_size := 0, version := 0, entries := [] } : MemoryMap).alloc_size
          (Except.ok addr) :: rest :=
  negotiateIter_regrow_alloc fwC3 (MemoryType.mk 2)
    [Event.alloc (MemoryType.mk 2) 1 (Except.ok 4096)]
    [Event.alloc (MemoryType.mk 2) 4 (Except.ok 8192),
     Event.free 4096 4 (Except.ok ()),
     Event.gmm
       { size := 4096, key := 0, descriptor_size := 0, version := 0, buffer := 4096 }
       { status := Status.failure 5, size := 12289, key := 0, descriptor_size := 0,
         version := 0, entries := [] },
     Event.alloc (MemoryType.mk 2) 1 (Except.ok 4096)]
    (initialMap 4096)
    { buffer := 8192, alloc_size := 4, size := 12289, key := 0, descriptor_size := 0,
      version := 0, entries := [] }
    (by decide) (by decide)

/-- The final log of `exit_boot_services fwC4 7 1 []` (newest event
first). -/
def c4log : List Event :=
  [Event.ebs 7 11 Status.success,
   Event.gmm
     { size := 4096, key := 0, descriptor_size := 0, version := 0, buffer := 4096 }
     { status := Status.success, size := 84, key := 11, descriptor_size := 42,
       version := 1
       entries :=
         [({ Type' := MemoryType.mk 4, PhysicalStart := 8192, VirtualStart := 0,
             NumberOfPages := 2, Attribute := 8 }, [9, 9]),
          ({ Type' := MemoryType.mk 7, PhysicalStart := 16384, VirtualStart := 0,
             NumberOfPages := 1, Attribute := 0 }, [5, 5])] },
   Event.alloc (MemoryType.mk 2) 1 (Except.ok 4096)]

/-- The map `exit_boot_services fwC4 7 1 []` returns: the
`BootServicesData` descriptor is retagged `ConventionalMemory`, all other
bytes untouched. -/
def c4map : MemoryMap :=
  { buffer := 4096, alloc_size := 1, size := 84, key := 11, descriptor_size := 42,
    version := 1
    entries :=
      [({ Type' := MemoryType.mk 7, PhysicalStart := 8192, VirtualStart := 0,
          NumberOfPages := 2, Attribute := 8 }, [9, 9]),
       ({ Type' := MemoryType.mk 7, PhysicalStart := 16384, VirtualStart := 0,
          NumberOfPages := 1, Attribute := 0 }, [5, 5])] }

/-- Witness for C4 on the `fwC4` run. -/
theorem exit_boot_services_rewrite_spec_witness :
    exit_boot_services fwC4 7 1 [] = some (c4log, Outcome.ok c4map) ∧
    (∃ out, lastGmmOut c4log = some out ∧
      c4map.entries = exit_boot_services_rewrite out.entries ∧
      c4map.entries.length = out.entries.length ∧
      ∀ i, i < out.entries.length →
        (((out.entries.getD i dfltChunk).1.Type' =
              MemoryType.ofName NamedMemoryType.BootServicesCode ∨
          (out.entries.getD i dfltChunk).1.Type' =
              MemoryType.ofName NamedMemoryType.BootServicesData) →
          (c4map.entries.getD i dfltChunk).1.Type' =
            MemoryType.ofName NamedMemoryType.ConventionalMemory) ∧
        (¬((out.entries.getD i dfltChunk).1.Type' =
              MemoryType.ofName NamedMemoryType.BootServicesCode ∨
           (out.entries.getD i dfltChunk).1.Type' =
              MemoryType.ofName NamedMemoryType.BootServicesData) →
          (c4map.entries.getD i dfltChunk).1 = (out.entries.getD i dfltChunk).1) ∧
        (c4map.entries.getD i dfltChunk).1.PhysicalStart =
          (out.entries.getD i dfltChunk).1.PhysicalStart ∧
        (c4map.entries.getD i dfltChunk).1.VirtualStart =
          (out.entries.getD i dfltChunk).1.VirtualStart ∧
        (c4map.entries.getD i dfltChunk).1.NumberOfPages =
          (out.entries.getD i dfltChunk).1.NumberOfPages ∧
        (c4map.entries.getD i dfltChunk).1.Attribute =
          (out.entries.getD i dfltChunk).1.Attribute ∧
        (c4map.entries.getD i dfltChunk).2 = (out.entries.getD i dfltChunk).2) :=
  ⟨by decide, exit_boot_services_rewrite_spec fwC4 7 1 [] c4log c4map (by decide)⟩

end Nuefil
